import Mathlib

/-!
Shallow embedding of `src/ecoatlas/scripts/edgar/aggregate_bbox.py`.

Modelling conventions:
* Python floats are embedded as rationals (ℚ); Python float `%` is
  `pymod x y = x - y * ⌊x / y⌋` (result sign follows the divisor,
  exactly like CPython on floats).
* A gridded variable (`xr.DataArray`) is embedded as its latitude
  coordinate values, its optional longitude coordinate values, its
  optional time coordinate values, and a cell-value function indexed by
  (time index, lat index, lon index); a missing (NaN) cell is `none`.
  Label-based slicing (`sel` with slices) is embedded as inclusive
  filtering of the coordinate values, the xarray semantics on
  monotonically increasing coordinates; label selection on the time
  axis is embedded positionally (the coordinate values are assumed
  distinct, as `float(summed.sel(time=t).values)` requires).
* `str.split(sep)` for one-character separators is `splitOnChar`;
  `Path(p).name` is the text after the last slash (`pathName`);
  Python's `float(tok)` builtin is an abstract parameter
  `pyfloat : String → Option ℚ` (`none` = `ValueError`).
* `str(np.datetime64(t, "Y"))` truncates a timestamp to its year and
  renders it zero-padded to 4 digits (ISO-8601); a timestamp is
  embedded as a `Date` whose `sub` component is the sub-year detail
  that the truncation discards.
* Each `raise ValueError(...)` site is an `Err` constructor named after
  the spec's error taxonomy; `Except.error` aborts the run, so no
  output is produced (`outputFile`).
-/

/-- Error taxonomy of the script (spec §7): malformed bbox, missing
variable, missing year token. -/
inductive Err where
  | invalidArgument : Err
  | variableNotFound : String → Err
  | missingYear : String → Err
deriving DecidableEq

/-- One output row: the dict `{"date": year, "value": val}` appended to
`series`. -/
structure SeriesPoint where
  date : String
  value : ℚ
deriving DecidableEq

/-- The four bbox bounds, in the order they are unpacked from
`parse_bbox`: `lon_min, lat_min, lon_max, lat_max`. -/
structure Bbox where
  lon_min : ℚ
  lat_min : ℚ
  lon_max : ℚ
  lat_max : ℚ
deriving DecidableEq

/-- Python float modulo: `x % y = x - y * floor(x / y)`. -/
def pymod (x y : ℚ) : ℚ := x - y * (⌊x / y⌋ : ℤ)

/-- `s.split(c)` for a one-character separator, on the character list of
the string: same semantics as Python `str.split` with an explicit
separator (`"".split(c) = [""]`, empty pieces kept). -/
def splitOnChar (c : Char) : List Char → List (List Char)
  | [] => [[]]
  | x :: xs =>
    match splitOnChar c xs, decide (x = c) with
    | r, true => [] :: r
    | [], false => [[x]]
    | h :: t, false => (x :: h) :: t

/-- Evaluation of the comprehension `[float(x) for x in ...]`: the first
token that fails to parse raises, otherwise all values are collected in
order. -/
def floatAll : List (Option ℚ) → Option (List ℚ)
  | [] => some []
  | none :: _ => none
  | some q :: rest => (floatAll rest).map (fun l => q :: l)

/-- `parse_bbox` from the script: split on commas, parse every token as a
float (a failure raises `ValueError`, i.e. `InvalidArgument`), then
require exactly 4 parts. `pyfloat` is the Python `float` builtin. -/
def parse_bbox (pyfloat : String → Option ℚ) (value : String) : Except Err (List ℚ) :=
  match floatAll (((splitOnChar ',' value.toList).map List.asString).map pyfloat) with
  | none => .error .invalidArgument
  | some parts => if parts.length = 4 then .ok parts else .error .invalidArgument

/-- The predicate `part.isdigit() and len(part) == 4` on an
underscore-delimited token. -/
def isYearToken (part : List Char) : Bool :=
  (!part.isEmpty && part.all Char.isDigit) && part.length == 4

/-- `extract_year_from_filename` from the script: first
underscore-delimited token that is all digits and exactly 4 characters
long, else `None`. -/
def extract_year_from_filename (filename : String) : Option String :=
  ((splitOnChar '_' filename.toList).find? isYearToken).map List.asString

/-- `Path(p).name`: the part of the path after the last `/` (for plain
file paths, which is what the script receives). -/
def pathName (p : String) : String :=
  ((splitOnChar '/' p.toList).getLastD []).asString

/-- A timestamp on the time coordinate: a year plus the sub-year detail
(month, day, ...) that truncation to year granularity discards. -/
structure Date where
  year : Nat
  sub : Nat
deriving DecidableEq

/-- `str(np.datetime64(t, "Y"))`: the year of the timestamp, zero-padded
to 4 digits (numpy's ISO-8601 rendering of a year-precision value). -/
def npYearChars (y : Nat) : List Char :=
  List.replicate (4 - (Nat.repr y).toList.length) '0' ++ (Nat.repr y).toList

/-- `str(np.datetime64(time_value, "Y")).split("-")[0]`: render the
truncated timestamp and take the text before the first dash (the dash
split only matters for negative years, which `Date` does not model). -/
def yearLabel (d : Date) : String :=
  ((splitOnChar '-' (npYearChars d.year)).headD []).asString

/-- The loaded variable `dataset[args.var]` (an `xr.DataArray`): its
coordinates and its cells. `lons = none` embeds a grid with no `lon`
coordinate; `time = none` embeds a variable with no time dimension (in
that case the time index of `vals` is irrelevant and read at 0). -/
structure DataVar where
  lats : List ℚ
  lons : Option (List ℚ)
  time : Option (List Date)
  vals : Nat → Nat → Nat → Option ℚ

/-- One input source: its path string and the dataset behind it, as the
association of variable names to data (`args.var not in dataset` is a
failed lookup). -/
structure Source where
  path : String
  vars : List (String × DataVar)

/-- The test `lon.max() > 180` guarded by `data.coords.get("lon") is not
None`: true iff the longitude coordinate is present and some (hence the
maximal) value exceeds 180. -/
def lonMaxGt180 (v : DataVar) : Bool :=
  match v.lons with
  | none => false
  | some ls => ls.any (fun x => decide (180 < x))

/-- The longitude-normalization block of `main`: when the grid uses the
0–360 convention, remap both `lon_min` and `lon_max` by Python `% 360`;
otherwise leave the working bbox unchanged. -/
def normalizeLon (b : Bbox) (v : DataVar) : Bbox :=
  if v.lons.isSome then
    if lonMaxGt180 v then
      { b with lon_min := pymod b.lon_min 360, lon_max := pymod b.lon_max 360 }
    else b
  else b

/-- `slice(lo, hi)` label-based selection on one coordinate: the indexed
coordinate values lying inclusively between the bounds. -/
def selRange (coord : List ℚ) (lo hi : ℚ) : List (Nat × ℚ) :=
  coord.enum.filter (fun p => decide (lo ≤ p.2) && decide (p.2 ≤ hi))

/-- The result of `data.sel(lon=slice(lon_min, lon_max),
lat=slice(lat_min, lat_max))`: the selected indexed coordinates of both
spatial axes, over the same cells. -/
structure Sliced where
  lats : List (Nat × ℚ)
  lons : List (Nat × ℚ)
  vals : Nat → Nat → Nat → Option ℚ

/-- The `sel` call of `main` on the working bbox. -/
def sel (v : DataVar) (b : Bbox) : Sliced :=
  ⟨selRange v.lats b.lat_min b.lat_max,
   selRange (v.lons.getD []) b.lon_min b.lon_max,
   v.vals⟩

/-- `sliced.sum(dim=("lat", "lon"), skipna=True)` at time index `t`:
missing cells contribute 0 and an empty selection sums to 0. -/
def sumLatLon (s : Sliced) (t : Nat) : ℚ :=
  (s.lats.map (fun i => (s.lons.map (fun j => (s.vals t i.1 j.1).getD 0)).sum)).sum

/-- The body of the per-source loop of `main`: check the variable,
normalize the working bbox, slice and sum, then label the result —
one point per time coordinate value when a time coordinate survives,
else a single point dated by the filename year. Returns the mutated
working bbox together with the points appended to `series`. -/
def processSource (varName : String) (b : Bbox) (src : Source) :
    Except Err (Bbox × List SeriesPoint) :=
  match src.vars.lookup varName with
  | none => .error (.variableNotFound varName)
  | some data =>
    let b1 := normalizeLon b data
    match data.time with
    | some ts =>
      .ok (b1, ts.enum.map (fun p => ⟨yearLabel p.2, sumLatLon (sel data b1) p.1⟩))
    | none =>
      match extract_year_from_filename (pathName src.path) with
      | none => .error (.missingYear src.path)
      | some y => .ok (b1, [⟨y, sumLatLon (sel data b1) 0⟩])

/-- The per-source loop of `main`: sources in order, the working bbox
threaded through (the mutated `lon_min`/`lon_max` of one iteration are
the starting values of the next), the series concatenated; the first
error aborts the run. -/
def processAll (varName : String) : Bbox → List Source → Except Err (Bbox × List SeriesPoint)
  | b, [] => .ok (b, [])
  | b, s :: rest =>
    match processSource varName b s with
    | .error e => .error e
    | .ok (b1, pts) =>
      match processAll varName b1 rest with
      | .error e => .error e
      | .ok (b2, pts2) => .ok (b2, pts ++ pts2)

/-- Python string `<=`: lexicographic comparison of the two character
sequences by code point (`Char.toNat`). -/
def strLeb : List Char → List Char → Bool
  | [], _ => true
  | _ :: _, [] => false
  | a :: as, b :: bs =>
    if a.toNat < b.toNat then true
    else if b.toNat < a.toNat then false
    else strLeb as bs

/-- The key order used by `sorted(series, key=lambda x: x["date"])`:
Python string (lexicographic, code-point) comparison of the period
labels. -/
def keyLe (p q : SeriesPoint) : Prop :=
  strLeb p.date.toList q.date.toList = true

instance keyLe.decidableRel : DecidableRel keyLe :=
  fun p q => instDecidableEqBool (strLeb p.date.toList q.date.toList) true

/-- `sorted(series, key=lambda x: x["date"])`: a stable sort by the
period string; Python's sort is stable, so its result is the insertion
sort by `keyLe`. -/
def sortSeries (l : List SeriesPoint) : List SeriesPoint :=
  l.insertionSort keyLe

/-- `main` after argument parsing: process every source, then sort the
collected series by period. -/
def runSources (varName : String) (b : Bbox) (srcs : List Source) :
    Except Err (List SeriesPoint) :=
  (processAll varName b srcs).map (fun r => sortSeries r.2)

/-- What `main` writes to `--output`: the sorted series on success,
nothing when the run aborted with an error (the write is the last
statement of `main`). -/
def outputFile (r : Except Err (List SeriesPoint)) : Option (List SeriesPoint) :=
  match r with
  | .ok pts => some pts
  | .error _ => none

/-- `main` from the bbox string on: parse the bbox, unpack it as
`lon_min, lat_min, lon_max, lat_max`, then run the per-source loop. -/
def mainRun (pyfloat : String → Option ℚ) (bboxStr varName : String)
    (srcs : List Source) : Except Err (List SeriesPoint) :=
  match parse_bbox pyfloat bboxStr with
  | .error e => .error e
  | .ok [a, b, c, d] => runSources varName ⟨a, b, c, d⟩ srcs
  | .ok _ => .error .invalidArgument

/-! ## Concrete fixtures used by the witnesses -/

/-- The bbox of the spec's normalization example: `(-10, 0, 10, 0)`. -/
def bboxW : Bbox := ⟨-10, 0, 10, 0⟩

/-- A grid on the 0–360 longitude convention (max longitude 350). -/
def gridHi : DataVar := ⟨[0], some [200, 350], none, fun _ _ _ => some 1⟩

/-- A source holding `gridHi` under variable name `emi`. -/
def srcHi : Source := ⟨"a_2001_x.nc", [("emi", gridHi)]⟩

/-- A grid on the -180/180 longitude convention. -/
def gridLo : DataVar := ⟨[0], some [-10, 0, 10], none, fun _ _ _ => some 2⟩

/-- A source holding `gridLo` under variable name `emi`. -/
def srcLo : Source := ⟨"b_2002_x.nc", [("emi", gridLo)]⟩

/-- The spec's 2×2 skip-missing example: values `[[1, missing], [2, 3]]`
on lat × lon coordinates `[0, 1] × [0, 1]`. -/
def grid2x2 : DataVar :=
  ⟨[0, 1], some [0, 1], none, fun _ i j =>
    if i = 0 ∧ j = 0 then some 1
    else if i = 0 ∧ j = 1 then none
    else if i = 1 ∧ j = 0 then some 2
    else some 3⟩

/-- A 1×1 grid with a scalar (time-free) value 3. -/
def gridScalar : DataVar := ⟨[0], some [0], none, fun _ _ _ => some 3⟩

/-- A source whose filename carries the year token `2021`. -/
def srcYr : Source := ⟨"edgar/data_emissions_2021_v2.nc", [("emi", gridScalar)]⟩

/-- A source whose filename has no 4-digit token. -/
def srcNoYr : Source := ⟨"edgar/data_v2.nc", [("emi", gridScalar)]⟩

/-- A grid with a time axis holding years 2019 and 2020, whose spatial
sums are 5 and 7.5. -/
def gridT : DataVar :=
  ⟨[0], some [0], some [⟨2019, 1⟩, ⟨2020, 2⟩],
   fun t _ _ => if t = 0 then some 5 else some (15 / 2)⟩

/-- A source holding `gridT` under variable name `emi`. -/
def srcT : Source := ⟨"t.nc", [("emi", gridT)]⟩

/-- A source that has the variable but neither a time axis nor a year
token in its filename. -/
def srcMissYr : Source := ⟨"data.nc", [("emi", gridScalar)]⟩

/-- A source that lacks the variable `emi` entirely. -/
def srcNoVar : Source := ⟨"b_2002.nc", []⟩

/-- A concrete stand-in for the Python `float` builtin, covering the
tokens used by the parser witnesses; every other token fails to parse. -/
def pyfloatW : String → Option ℚ := fun s =>
  if s = "-10" then some (-10)
  else if s = "0" then some 0
  else if s = "10" then some 10
  else if s = "1" then some 1
  else if s = "2" then some 2
  else none

/-! ## Helper lemmas -/

theorem pymod_eq_fract (x : ℚ) : pymod x 360 = 360 * Int.fract (x / 360) := by
  unfold pymod Int.fract
  ring

theorem pymod_nonneg (x : ℚ) : 0 ≤ pymod x 360 := by
  rw [pymod_eq_fract]
  have h := Int.fract_nonneg (x / 360)
  linarith

theorem pymod_lt (x : ℚ) : pymod x 360 < 360 := by
  rw [pymod_eq_fract]
  have h := Int.fract_lt_one (x / 360)
  linarith

theorem pymod_eq_self {x : ℚ} (h0 : 0 ≤ x) (h1 : x < 360) : pymod x 360 = x := by
  have hf : ⌊x / 360⌋ = 0 := by
    rw [Int.floor_eq_zero_iff]
    refine Set.mem_Ico.mpr ⟨by positivity, ?_⟩
    rw [div_lt_one (by norm_num : (0 : ℚ) < 360)]
    exact h1
  simp [pymod, hf]

theorem pymod_idem (x : ℚ) : pymod (pymod x 360) 360 = pymod x 360 :=
  pymod_eq_self (pymod_nonneg x) (pymod_lt x)

theorem strLeb_refl (a : List Char) : strLeb a a = true := by
  induction a with
  | nil => rfl
  | cons x xs ih => simp [strLeb, ih]

theorem strLeb_total (a b : List Char) : strLeb a b = true ∨ strLeb b a = true := by
  induction a generalizing b with
  | nil => left; rfl
  | cons x xs ih =>
    cases b with
    | nil => right; rfl
    | cons y ys =>
      rcases Nat.lt_trichotomy x.toNat y.toNat with h | h | h
      · left; simp [strLeb, h]
      · rcases ih ys with h2 | h2
        · left; simp [strLeb, h, h2]
        · right; simp [strLeb, h, h2]
      · right; simp [strLeb, h]

theorem strLeb_trans {a b c : List Char} (h1 : strLeb a b = true)
    (h2 : strLeb b c = true) : strLeb a c = true := by
  induction a generalizing b c with
  | nil => rfl
  | cons x xs ih =>
    cases b with
    | nil => simp [strLeb] at h1
    | cons y ys =>
      cases c with
      | nil => simp [strLeb] at h2
      | cons z zs =>
        simp only [strLeb] at h1 h2 ⊢
        split_ifs at h1 h2 ⊢ <;>
          first
            | rfl
            | omega
            | exact ih h1 h2

instance keyLe.isTotal : IsTotal SeriesPoint keyLe :=
  ⟨fun p q => strLeb_total p.date.toList q.date.toList⟩

instance keyLe.isTrans : IsTrans SeriesPoint keyLe :=
  ⟨fun _ _ _ h1 h2 => strLeb_trans h1 h2⟩

theorem filter_orderedInsert (d : String) (x : SeriesPoint) (l : List SeriesPoint) :
    (l.orderedInsert keyLe x).filter (fun p => decide (p.date = d))
      = if x.date = d then x :: l.filter (fun p => decide (p.date = d))
        else l.filter (fun p => decide (p.date = d)) := by
  induction l with
  | nil =>
    by_cases hx : x.date = d <;> simp [List.orderedInsert, hx]
  | cons y ys ih =>
    by_cases hxy : keyLe x y
    · simp only [List.orderedInsert, if_pos hxy]
      by_cases hx : x.date = d <;> by_cases hy : y.date = d <;>
        simp [List.filter_cons, hx, hy]
    · simp only [List.orderedInsert, if_neg hxy, List.filter_cons, ih]
      by_cases hx : x.date = d
      · have hy : ¬ y.date = d := by
          intro he
          apply hxy
          show strLeb x.date.toList y.date.toList = true
          rw [hx.trans he.symm]
          exact strLeb_refl _
        simp [hx, hy]
      · by_cases hy : y.date = d <;> simp [hx, hy]

theorem filter_sortSeries (d : String) (l : List SeriesPoint) :
    (sortSeries l).filter (fun p => decide (p.date = d))
      = l.filter (fun p => decide (p.date = d)) := by
  induction l with
  | nil => rfl
  | cons x xs ih =>
    simp only [sortSeries, List.insertionSort] at ih ⊢
    rw [filter_orderedInsert]
    by_cases hx : x.date = d <;> simp [hx, ih, List.filter_cons]

theorem sum_map_filter {α : Type} (p : α → Bool) (f : α → ℚ) (l : List α) :
    ((l.filter p).map f).sum = (l.map (fun x => if p x = true then f x else 0)).sum := by
  induction l with
  | nil => rfl
  | cons x xs ih =>
    by_cases h : p x = true <;> simp [List.filter_cons, h, ih]

theorem floatAll_some_length {l : List (Option ℚ)} {parts : List ℚ}
    (h : floatAll l = some parts) : parts.length = l.length := by
  induction l generalizing parts with
  | nil =>
    simp only [floatAll, Option.some.injEq] at h
    simp [← h]
  | cons o rest ih =>
    cases o with
    | none => simp [floatAll] at h
    | some q =>
      simp only [floatAll, Option.map_eq_some'] at h
      obtain ⟨ps, hps, rfl⟩ := h
      simp [ih hps]

theorem floatAll_of_mem_none {l : List (Option ℚ)} (h : none ∈ l) : floatAll l = none := by
  induction l with
  | nil => cases h
  | cons o rest ih =>
    cases o with
    | none => rfl
    | some q =>
      rcases List.mem_cons.mp h with h1 | h1
      · cases h1
      · simp [floatAll, ih h1]

theorem normalizeLon_lat (b : Bbox) (v : DataVar) :
    (normalizeLon b v).lat_min = b.lat_min ∧ (normalizeLon b v).lat_max = b.lat_max := by
  unfold normalizeLon
  split
  · split
    · exact ⟨rfl, rfl⟩
    · exact ⟨rfl, rfl⟩
  · exact ⟨rfl, rfl⟩

theorem processSource_ok_bbox {varName : String} {b : Bbox} {s : Source} {b1 : Bbox}
    {pts : List SeriesPoint} (h : processSource varName b s = .ok (b1, pts)) :
    ∃ data, s.vars.lookup varName = some data ∧ b1 = normalizeLon b data := by
  unfold processSource at h
  cases hl : s.vars.lookup varName with
  | none =>
    simp only [hl] at h
    exact Except.noConfusion h
  | some data =>
    simp only [hl] at h
    refine ⟨data, rfl, ?_⟩
    cases ht : data.time with
    | some ts =>
      simp only [ht, Except.ok.injEq, Prod.mk.injEq] at h
      exact h.1.symm
    | none =>
      simp only [ht] at h
      cases he : extract_year_from_filename (pathName s.path) with
      | none =>
        simp only [he] at h
        exact Except.noConfusion h
      | some y =>
        simp only [he, Except.ok.injEq, Prod.mk.injEq] at h
        exact h.1.symm

theorem processAll_append (varName : String) (b : Bbox) (l1 l2 : List Source) :
    processAll varName b (l1 ++ l2)
      = match processAll varName b l1 with
        | .error e => .error e
        | .ok (b1, ps) =>
          match processAll varName b1 l2 with
          | .error e => .error e
          | .ok (b2, ps2) => .ok (b2, ps ++ ps2) := by
  induction l1 generalizing b with
  | nil =>
    simp only [List.nil_append, processAll]
    cases h : processAll varName b l2 with
    | error e => rfl
    | ok r => cases r; simp
  | cons s rest ih =>
    simp only [List.cons_append, processAll]
    cases hs : processSource varName b s with
    | error e => rfl
    | ok r =>
      cases r with
      | mk b1 ps =>
        dsimp only
        rw [show rest.append l2 = rest ++ l2 from rfl, ih b1]
        cases h1 : processAll varName b1 rest with
        | error e => rfl
        | ok r1 =>
          cases r1 with
          | mk b2 ps2 =>
            cases h2 : processAll varName b2 l2 with
            | error e => simp [h2]
            | ok r2 => cases r2; simp [h2]

theorem digitChar_ne_dash {m : Nat} (h : m < 10) : Nat.digitChar m ≠ '-' := by
  interval_cases m <;> decide

theorem toDigitsCore_ne_dash (f : Nat) : ∀ (n : Nat) (acc : List Char),
    (∀ c ∈ acc, c ≠ '-') → ∀ c ∈ Nat.toDigitsCore 10 f n acc, c ≠ '-' := by
  induction f with
  | zero => intro n acc hacc c hc; exact hacc c hc
  | succ f ih =>
    intro n acc hacc c hc
    simp only [Nat.toDigitsCore] at hc
    by_cases h : n / 10 = 0
    · rw [if_pos h] at hc
      rcases List.mem_cons.mp hc with h1 | h1
      · rw [h1]; exact digitChar_ne_dash (Nat.mod_lt n (by norm_num))
      · exact hacc c h1
    · rw [if_neg h] at hc
      refine ih (n / 10) (Nat.digitChar (n % 10) :: acc) ?_ c hc
      intro z hz
      rcases List.mem_cons.mp hz with h1 | h1
      · rw [h1]; exact digitChar_ne_dash (Nat.mod_lt n (by norm_num))
      · exact hacc z h1

theorem repr_ne_dash (y : Nat) : ∀ c ∈ (Nat.repr y).toList, c ≠ '-' := by
  intro c hc
  have he : (Nat.repr y).toList = Nat.toDigitsCore 10 (y + 1) y [] := rfl
  rw [he] at hc
  exact toDigitsCore_ne_dash (y + 1) y [] (by intro z hz; cases hz) c hc

theorem npYearChars_ne_dash (y : Nat) : ∀ c ∈ npYearChars y, c ≠ '-' := by
  intro c hc
  rcases List.mem_append.mp hc with h | h
  · rw [List.eq_of_mem_replicate h]; decide
  · exact repr_ne_dash y c h

theorem splitOnChar_of_forall_ne {c : Char} {l : List Char}
    (h : ∀ x ∈ l, x ≠ c) : splitOnChar c l = [l] := by
  induction l with
  | nil => rfl
  | cons x xs ih =>
    have hx : decide (x = c) = false := by
      simp [h x (List.mem_cons_self x xs)]
    have hxs := ih (fun z hz => h z (List.mem_cons_of_mem x hz))
    simp [splitOnChar, hx, hxs]

theorem yearLabel_eq_npYearChars (d : Date) :
    yearLabel d = (npYearChars d.year).asString := by
  unfold yearLabel
  rw [splitOnChar_of_forall_ne (npYearChars_ne_dash d.year)]
  rfl

theorem yearLabel_length {d : Date} (h : d.year ≤ 9999) :
    (yearLabel d).toList.length = 4 := by
  rw [yearLabel_eq_npYearChars]
  show (npYearChars d.year).length = 4
  unfold npYearChars
  rw [List.length_append, List.length_replicate]
  have hlen : (Nat.repr d.year).toList.length ≤ 4 := by
    have h4 := Nat.repr_length d.year 4 (by norm_num) (by omega)
    exact h4
  omega

theorem lonMaxGt180_isSome {v : DataVar} (h : lonMaxGt180 v = true) :
    v.lons.isSome = true := by
  unfold lonMaxGt180 at h
  cases hl : v.lons with
  | none => rw [hl] at h; cases h
  | some ls => simp [hl]

theorem lonMaxGt180_iff {v : DataVar} {ls : List ℚ} (h : v.lons = some ls) :
    lonMaxGt180 v = true ↔ ∃ x ∈ ls, (180 : ℚ) < x := by
  unfold lonMaxGt180
  rw [h]
  simp [List.any_eq_true]

/-! ## Claim theorems -/

/-- C1: for every input source, longitude normalization of the working
bbox behaves as follows: when the grid has a longitude coordinate whose
maximum exceeds 180, both `lon_min` and `lon_max` are replaced by their
values modulo 360, each result lying in [0, 360); when the longitude
maximum is at most 180, or the grid has no longitude coordinate, the
working bbox is unchanged. -/
theorem c1_lon_normalization (b : Bbox) (v : DataVar) :
    (∀ ls : List ℚ, v.lons = some ls → (∃ x ∈ ls, (180 : ℚ) < x) →
        normalizeLon b v
            = { b with lon_min := pymod b.lon_min 360, lon_max := pymod b.lon_max 360 }
          ∧ 0 ≤ pymod b.lon_min 360 ∧ pymod b.lon_min 360 < 360
          ∧ 0 ≤ pymod b.lon_max 360 ∧ pymod b.lon_max 360 < 360)
    ∧ (∀ ls : List ℚ, v.lons = some ls → (∀ x ∈ ls, x ≤ 180) → normalizeLon b v = b)
    ∧ (v.lons = none → normalizeLon b v = b) := by
  refine ⟨?_, ?_, ?_⟩
  · intro ls hls hex
    have hgt : lonMaxGt180 v = true := (lonMaxGt180_iff hls).mpr hex
    have hsome : v.lons.isSome = true := by rw [hls]; rfl
    refine ⟨?_, pymod_nonneg _, pymod_lt _, pymod_nonneg _, pymod_lt _⟩
    unfold normalizeLon
    rw [if_pos hsome, if_pos hgt]
  · intro ls hls hle
    have hgt : lonMaxGt180 v = false := by
      cases hb : lonMaxGt180 v
      · rfl
      · exfalso
        obtain ⟨x, hx, h180⟩ := (lonMaxGt180_iff hls).mp hb
        exact absurd (hle x hx) (not_le.mpr h180)
    unfold normalizeLon
    simp [hgt]
  · intro hnone
    unfold normalizeLon
    simp [hnone]

/-- Witness for C1: the spec's example. The 0–360 grid `gridHi` remaps
the bbox `(-10, 0, 10, 0)` to `(350, 0, 10, 0)`; the -180/180 grid
`gridLo` leaves it unchanged. -/
theorem c1_lon_normalization_witness :
    normalizeLon bboxW gridHi = ⟨350, 0, 10, 0⟩
    ∧ normalizeLon bboxW gridLo = bboxW := by
  constructor
  · have h := ((c1_lon_normalization bboxW gridHi).1 [200, 350] rfl
      ⟨350, by norm_num, by norm_num⟩).1
    rw [h]
    simp only [bboxW]
    norm_num [pymod, Bbox.mk.injEq]
  · exact (c1_lon_normalization bboxW gridLo).2.1 [-10, 0, 10] rfl (by norm_num)

/-- C9: latitude bounds are never modified. Longitude normalization
leaves `lat_min` and `lat_max` untouched, and across a whole successful
run the final working bbox keeps the originally parsed latitude
bounds. -/
theorem c9_lat_invariant (varName : String) (b : Bbox) (srcs : List Source)
    (b2 : Bbox) (pts : List SeriesPoint)
    (h : processAll varName b srcs = .ok (b2, pts)) :
    (b2.lat_min = b.lat_min ∧ b2.lat_max = b.lat_max)
    ∧ ∀ (b3 : Bbox) (v : DataVar),
        (normalizeLon b3 v).lat_min = b3.lat_min
        ∧ (normalizeLon b3 v).lat_max = b3.lat_max := by
  refine ⟨?_, fun b3 v => normalizeLon_lat b3 v⟩
  induction srcs generalizing b pts with
  | nil =>
    simp only [processAll, Except.ok.injEq, Prod.mk.injEq] at h
    rw [← h.1]
    exact ⟨rfl, rfl⟩
  | cons s rest ih =>
    simp only [processAll] at h
    cases hs : processSource varName b s with
    | error e =>
      simp only [hs] at h
      exact Except.noConfusion h
    | ok r =>
      obtain ⟨b1, ps⟩ := r
      simp only [hs] at h
      cases h1 : processAll varName b1 rest with
      | error e =>
        simp only [h1] at h
        exact Except.noConfusion h
      | ok r1 =>
        obtain ⟨bf, ps2⟩ := r1
        simp only [h1, Except.ok.injEq, Prod.mk.injEq] at h
        obtain ⟨hb, -⟩ := h
        subst hb
        obtain ⟨data, -, hdata⟩ := processSource_ok_bbox hs
        have hrec := ih b1 ps2 h1
        have hnl := normalizeLon_lat b data
        rw [hdata] at hrec
        exact ⟨hrec.1.trans hnl.1, hrec.2.trans hnl.2⟩

/-- Witness for C9: in the two-source run over `gridHi` then `gridLo`
the final working bbox has the original latitude bounds (only the
longitude bounds were remapped). -/
theorem c9_lat_invariant_witness :
    (Bbox.mk 350 0 10 0).lat_min = bboxW.lat_min
    ∧ (Bbox.mk 350 0 10 0).lat_max = bboxW.lat_max := by
  have hA : processSource "emi" bboxW srcHi = .ok (⟨350, 0, 10, 0⟩, [⟨"2001", 0⟩]) := by
    norm_num [processSource, normalizeLon, lonMaxGt180, pymod, sel, selRange,
      sumLatLon, extract_year_from_filename, pathName, splitOnChar, isYearToken, List.lookup,
      List.enum, List.enumFrom, bboxW, gridHi, srcHi]
    rfl
  have hB : processSource "emi" ⟨350, 0, 10, 0⟩ srcLo = .ok (⟨350, 0, 10, 0⟩, [⟨"2002", 0⟩]) := by
    norm_num [processSource, normalizeLon, lonMaxGt180, pymod, sel, selRange,
      sumLatLon, extract_year_from_filename, pathName, splitOnChar, isYearToken, List.lookup,
      List.enum, List.enumFrom, gridLo, srcLo]
    rfl
  have hrun : processAll "emi" bboxW [srcHi, srcLo]
      = .ok (⟨350, 0, 10, 0⟩, [⟨"2001", 0⟩, ⟨"2002", 0⟩]) := by
    simp [processAll, hA, hB]
  exact (c9_lat_invariant "emi" bboxW [srcHi, srcLo] _ _ hrun).1

/-- C10: longitude normalization is idempotent. Python `% 360` is
idempotent on every rational, so a second source on the 0–360
convention leaves the already-remapped working bounds unchanged, and
the carried-over state then agrees with fresh normalization. -/
theorem c10_mod_idempotent :
    (∀ x : ℚ, pymod (pymod x 360) 360 = pymod x 360)
    ∧ (∀ (b : Bbox) (v1 v2 : DataVar),
        lonMaxGt180 v1 = true → lonMaxGt180 v2 = true →
          normalizeLon (normalizeLon b v1) v2 = normalizeLon b v1
          ∧ normalizeLon (normalizeLon b v1) v2 = normalizeLon b v2) := by
  refine ⟨pymod_idem, ?_⟩
  intro b v1 v2 h1 h2
  have hs1 := lonMaxGt180_isSome h1
  have hs2 := lonMaxGt180_isSome h2
  have e1 : normalizeLon b v1
      = { b with lon_min := pymod b.lon_min 360, lon_max := pymod b.lon_max 360 } := by
    unfold normalizeLon
    rw [if_pos hs1, if_pos h1]
  have e2 : normalizeLon b v2
      = { b with lon_min := pymod b.lon_min 360, lon_max := pymod b.lon_max 360 } := by
    unfold normalizeLon
    rw [if_pos hs2, if_pos h2]
  have e12 : normalizeLon (normalizeLon b v1) v2 = normalizeLon b v1 := by
    rw [e1]
    unfold normalizeLon
    rw [if_pos hs2, if_pos h2]
    simp [pymod_idem]
  exact ⟨e12, by rw [e12, e1, e2]⟩

/-- Witness for C10: `370 % 360 = 10` is a fixed point of `% 360`, and
re-normalizing the already-normalized bbox against the same 0–360 grid
changes nothing. -/
theorem c10_mod_idempotent_witness :
    pymod (pymod 370 360) 360 = pymod 370 360
    ∧ normalizeLon (normalizeLon bboxW gridHi) gridHi = normalizeLon bboxW gridHi := by
  have hgt : lonMaxGt180 gridHi = true := by
    norm_num [lonMaxGt180, gridHi]
  exact ⟨c10_mod_idempotent.1 370, (c10_mod_idempotent.2 bboxW gridHi gridHi hgt hgt).1⟩

/-- C2: normalized longitude bounds persist across the per-source loop.
The working bbox left by one source (possibly remapped) is exactly the
bbox with which the rest of the sources are processed — not a fresh copy
of the originally parsed bbox. -/
theorem c2_bbox_carryover (varName : String) (b b1 : Bbox) (s : Source)
    (rest : List Source) (pts1 : List SeriesPoint)
    (h : processSource varName b s = .ok (b1, pts1)) :
    processAll varName b (s :: rest)
      = match processAll varName b1 rest with
        | .error e => .error e
        | .ok (b2, pts2) => .ok (b2, pts1 ++ pts2) := by
  simp only [processAll, h]

/-- Witness for C2: source 1 (`gridHi`, 0–360 convention) remaps the
bounds to `(350, 10)`; source 2 (`gridLo`, -180/180 convention) is then
sliced with those carried-over bounds and selects nothing (value 0),
whereas the same source processed from the fresh parsed bbox would sum
to 6. -/
theorem c2_bbox_carryover_witness :
    processAll "emi" bboxW [srcHi, srcLo]
      = .ok (⟨350, 0, 10, 0⟩, [⟨"2001", 0⟩, ⟨"2002", 0⟩])
    ∧ processSource "emi" bboxW srcLo = .ok (bboxW, [⟨"2002", 6⟩]) := by
  have hA : processSource "emi" bboxW srcHi = .ok (⟨350, 0, 10, 0⟩, [⟨"2001", 0⟩]) := by
    norm_num [processSource, normalizeLon, lonMaxGt180, pymod, sel, selRange,
      sumLatLon, extract_year_from_filename, pathName, splitOnChar, isYearToken, List.lookup,
      List.enum, List.enumFrom, bboxW, gridHi, srcHi]
    rfl
  have hB : processSource "emi" ⟨350, 0, 10, 0⟩ srcLo
      = .ok (⟨350, 0, 10, 0⟩, [⟨"2002", 0⟩]) := by
    norm_num [processSource, normalizeLon, lonMaxGt180, pymod, sel, selRange,
      sumLatLon, extract_year_from_filename, pathName, splitOnChar, isYearToken, List.lookup,
      List.enum, List.enumFrom, gridLo, srcLo]
    rfl
  constructor
  · rw [c2_bbox_carryover "emi" bboxW ⟨350, 0, 10, 0⟩ srcHi [srcLo] [⟨"2001", 0⟩] hA]
    simp [processAll, hB]
  · norm_num [processSource, normalizeLon, lonMaxGt180, pymod, sel, selRange,
      sumLatLon, extract_year_from_filename, pathName, splitOnChar, isYearToken, List.lookup,
      List.enum, List.enumFrom, bboxW, gridLo, srcLo]
    rfl

/-- C3: the spatial reduction sums exactly the cells whose lon lies in
[lon_min, lon_max] and lat in [lat_min, lat_max] (inclusive, label
based), a missing cell contributing zero; when one of the two
selections is empty the sum is 0, not an error. -/
theorem c3_spatial_reduction (v : DataVar) (b : Bbox) (t : Nat) :
    sumLatLon (sel v b) t
        = (v.lats.enum.map (fun i =>
            if b.lat_min ≤ i.2 ∧ i.2 ≤ b.lat_max then
              ((v.lons.getD []).enum.map (fun j =>
                if b.lon_min ≤ j.2 ∧ j.2 ≤ b.lon_max then (v.vals t i.1 j.1).getD 0
                else 0)).sum
            else 0)).sum
    ∧ (selRange v.lats b.lat_min b.lat_max = []
        ∨ selRange (v.lons.getD []) b.lon_min b.lon_max = [] →
        sumLatLon (sel v b) t = 0) := by
  constructor
  · unfold sumLatLon sel selRange
    simp only [sum_map_filter]
    simp [Bool.and_eq_true, decide_eq_true_eq]
  · intro hsel
    unfold sumLatLon sel
    rcases hsel with h | h
    · rw [h]
      simp
    · rw [h]
      simp

/-- Witness for C3: the 2×2 grid [[1, missing], [2, 3]] sums to 6 under
a bbox covering it, and a bbox entirely outside the grid extent sums to
0. -/
theorem c3_spatial_reduction_witness :
    sumLatLon (sel grid2x2 ⟨0, 0, 1, 1⟩) 0 = 6
    ∧ sumLatLon (sel grid2x2 ⟨50, 50, 60, 60⟩) 0 = 0 := by
  constructor
  · rw [(c3_spatial_reduction grid2x2 ⟨0, 0, 1, 1⟩ 0).1]
    norm_num [grid2x2, List.enum, List.enumFrom]
  · exact (c3_spatial_reduction grid2x2 ⟨50, 50, 60, 60⟩ 0).2
      (Or.inl (by norm_num [selRange, grid2x2, List.enum, List.enumFrom]))

/-- C4: for a source whose variable has no time coordinate, the emitted
period is the first underscore-delimited token of the input's filename
that is all-numeric and exactly four characters long, with exactly one
SeriesPoint carrying the single scalar; if no such token exists the
source fails with MissingYear. -/
theorem c4_filename_year (varName : String) (b : Bbox) (src : Source) (data : DataVar)
    (hv : src.vars.lookup varName = some data) (ht : data.time = none) :
    (∀ y, extract_year_from_filename (pathName src.path) = some y →
        processSource varName b src
          = .ok (normalizeLon b data,
              [⟨y, sumLatLon (sel data (normalizeLon b data)) 0⟩]))
    ∧ (extract_year_from_filename (pathName src.path) = none →
        processSource varName b src = .error (.missingYear src.path))
    ∧ (∀ y, extract_year_from_filename (pathName src.path) = some y →
        ∃ ts1 ts2, splitOnChar '_' (pathName src.path).toList = ts1 ++ y.toList :: ts2
          ∧ (∀ tok ∈ ts1, isYearToken tok = false)
          ∧ y.toList.all Char.isDigit = true ∧ y.toList.length = 4)
    ∧ (extract_year_from_filename (pathName src.path) = none →
        ∀ tok ∈ splitOnChar '_' (pathName src.path).toList, isYearToken tok = false) := by
  refine ⟨?_, ?_, ?_, ?_⟩
  · intro y hy
    unfold processSource
    simp only [hv, ht, hy]
  · intro hy
    unfold processSource
    simp only [hv, ht, hy]
  · intro y hy
    unfold extract_year_from_filename at hy
    rw [Option.map_eq_some'] at hy
    obtain ⟨tok, hfind, htok⟩ := hy
    have hyl : y.toList = tok := by rw [← htok]; rfl
    rw [List.find?_eq_some] at hfind
    obtain ⟨hp, ts1, ts2, heq, hall⟩ := hfind
    refine ⟨ts1, ts2, by rw [hyl]; exact heq, ?_, ?_, ?_⟩
    · intro tok2 h2
      have := hall tok2 h2
      simpa using this
    · rw [hyl]
      unfold isYearToken at hp
      simp only [Bool.and_eq_true] at hp
      exact hp.1.2
    · rw [hyl]
      unfold isYearToken at hp
      simp only [Bool.and_eq_true, beq_iff_eq] at hp
      exact hp.2
  · intro hy
    unfold extract_year_from_filename at hy
    rw [Option.map_eq_none'] at hy
    intro tok htok
    have := List.find?_eq_none.mp hy tok htok
    simpa using this

/-- Witness for C4: the path `edgar/data_emissions_2021_v2.nc` (scalar
variable) yields the single point dated `2021` with the scalar sum 3,
and the path `edgar/data_v2.nc` fails with MissingYear. -/
theorem c4_filename_year_witness :
    processSource "emi" bboxW srcYr = .ok (bboxW, [⟨"2021", 3⟩])
    ∧ processSource "emi" bboxW srcNoYr = .error (.missingYear "edgar/data_v2.nc") := by
  constructor
  · have h := (c4_filename_year "emi" bboxW srcYr gridScalar rfl rfl).1 "2021" (by decide)
    rw [h]
    norm_num [normalizeLon, lonMaxGt180, gridScalar, sel, selRange, sumLatLon, bboxW,
      List.enum, List.enumFrom]
  · exact (c4_filename_year "emi" bboxW srcNoYr gridScalar rfl rfl).2.1 (by decide)

/-- C5: for a source whose variable retains a time coordinate, exactly
one SeriesPoint is emitted per temporal coordinate value, in coordinate
order, whose period is the year label obtained by truncating that
timestamp to year granularity (4 characters for years up to 9999) and
whose value is the corresponding reduced scalar. -/
theorem c5_time_axis (varName : String) (b : Bbox) (src : Source) (data : DataVar)
    (ts : List Date) (hv : src.vars.lookup varName = some data)
    (ht : data.time = some ts) :
    processSource varName b src
        = .ok (normalizeLon b data,
            ts.enum.map (fun p =>
              ⟨yearLabel p.2, sumLatLon (sel data (normalizeLon b data)) p.1⟩))
    ∧ (ts.enum.map (fun p =>
          (⟨yearLabel p.2, sumLatLon (sel data (normalizeLon b data)) p.1⟩ : SeriesPoint))).length
        = ts.length
    ∧ (∀ k : Nat,
        (ts.enum.map (fun p =>
          (⟨yearLabel p.2, sumLatLon (sel data (normalizeLon b data)) p.1⟩ : SeriesPoint)))[k]?
          = ts[k]?.map (fun d =>
              ⟨yearLabel d, sumLatLon (sel data (normalizeLon b data)) k⟩))
    ∧ (∀ d : Date, d.year ≤ 9999 → (yearLabel d).toList.length = 4) := by
  refine ⟨?_, ?_, ?_, fun d hd => yearLabel_length hd⟩
  · unfold processSource
    simp only [hv, ht]
  · simp
  · intro k
    rw [List.getElem?_map, List.getElem?_enum]
    cases ts[k]? <;> simp

/-- Witness for C5: the time-axis source with years 2019 and 2020 and
spatial sums 5 and 7.5 yields exactly the points (2019, 5.0) and
(2020, 7.5), in coordinate order. -/
theorem c5_time_axis_witness :
    processSource "emi" bboxW srcT = .ok (bboxW, [⟨"2019", 5⟩, ⟨"2020", 15 / 2⟩]) := by
  have h := (c5_time_axis "emi" bboxW srcT gridT [⟨2019, 1⟩, ⟨2020, 2⟩] rfl rfl).1
  rw [h]
  norm_num [normalizeLon, lonMaxGt180, gridT, sel, selRange, sumLatLon, bboxW,
    List.enum, List.enumFrom]
  decide

/-- C6: for every bbox string splitting into exactly four numeric
comma-separated tokens, the parser returns the four parsed values in
order `lon_min, lat_min, lon_max, lat_max` (no ordering or range
validation); for any other token count, or any non-numeric token, it
fails with InvalidArgument. -/
theorem c6_parse_bbox (pyfloat : String → Option ℚ) (value : String) :
    (∀ q1 q2 q3 q4 : ℚ,
        ((splitOnChar ',' value.toList).map List.asString).map pyfloat
            = [some q1, some q2, some q3, some q4] →
        parse_bbox pyfloat value = .ok [q1, q2, q3, q4]
        ∧ ∀ (varName : String) (srcs : List Source),
            mainRun pyfloat value varName srcs
              = runSources varName ⟨q1, q2, q3, q4⟩ srcs)
    ∧ ((splitOnChar ',' value.toList).length ≠ 4 →
        parse_bbox pyfloat value = .error .invalidArgument)
    ∧ ((∃ tok ∈ splitOnChar ',' value.toList, pyfloat tok.asString = none) →
        parse_bbox pyfloat value = .error .invalidArgument) := by
  refine ⟨?_, ?_, ?_⟩
  · intro q1 q2 q3 q4 hq
    have hp : parse_bbox pyfloat value = .ok [q1, q2, q3, q4] := by
      unfold parse_bbox
      rw [hq]
      rfl
    refine ⟨hp, ?_⟩
    intro varName srcs
    unfold mainRun
    rw [hp]
  · intro hlen
    unfold parse_bbox
    cases hf : floatAll (((splitOnChar ',' value.toList).map List.asString).map pyfloat) with
    | none => rfl
    | some parts =>
      have hpl : parts.length = (splitOnChar ',' value.toList).length := by
        rw [floatAll_some_length hf]
        simp
      simp only [hf]
      rw [if_neg (by rw [hpl]; exact hlen)]
  · intro hex
    obtain ⟨tok, htok, hnone⟩ := hex
    have hmem : (none : Option ℚ)
        ∈ ((splitOnChar ',' value.toList).map List.asString).map pyfloat := by
      rw [List.map_map]
      exact List.mem_map.mpr ⟨tok, htok, hnone⟩
    unfold parse_bbox
    simp only [floatAll_of_mem_none hmem]

/-- Witness for C6: `"-10,0,10,0"` parses to the four values in order
and feeds them to the run as `lon_min, lat_min, lon_max, lat_max`; a
2-token string and a string with non-numeric tokens both fail with
InvalidArgument. -/
theorem c6_parse_bbox_witness :
    parse_bbox pyfloatW "-10,0,10,0" = .ok [-10, 0, 10, 0]
    ∧ mainRun pyfloatW "-10,0,10,0" "emi" [] = runSources "emi" ⟨-10, 0, 10, 0⟩ []
    ∧ parse_bbox pyfloatW "1,2" = .error .invalidArgument
    ∧ parse_bbox pyfloatW "a,b,c,d" = .error .invalidArgument := by
  have h1 := (c6_parse_bbox pyfloatW "-10,0,10,0").1 (-10) 0 10 0 (by rfl)
  refine ⟨h1.1, h1.2 "emi" [], ?_, ?_⟩
  · exact (c6_parse_bbox pyfloatW "1,2").2.1 (by decide)
  · exact (c6_parse_bbox pyfloatW "a,b,c,d").2.2 ⟨"a".toList, by decide, by rfl⟩

/-- C7: the final output of a successful run is the concatenation of
the per-source points sorted ascending by period compared as a string
(lexicographic, not numeric); points sharing a period are all kept and
keep their relative input order. -/
theorem c7_sorted_output :
    (∀ (varName : String) (b : Bbox) (srcs : List Source),
        runSources varName b srcs
          = (processAll varName b srcs).map (fun r => sortSeries r.2))
    ∧ (∀ pts : List SeriesPoint, List.Sorted keyLe (sortSeries pts))
    ∧ (∀ pts : List SeriesPoint, List.Perm (sortSeries pts) pts)
    ∧ (∀ (pts : List SeriesPoint) (d : String),
        (sortSeries pts).filter (fun p => decide (p.date = d))
          = pts.filter (fun p => decide (p.date = d)))
    ∧ sortSeries [⟨"2021", 1⟩, ⟨"2019", 2⟩] = [⟨"2019", 2⟩, ⟨"2021", 1⟩]
    ∧ sortSeries [⟨"999", 1⟩, ⟨"1000", 2⟩] = [⟨"1000", 2⟩, ⟨"999", 1⟩] := by
  refine ⟨fun _ _ _ => rfl, ?_, ?_, fun pts d => filter_sortSeries d pts, by decide, by decide⟩
  · intro pts
    exact List.sorted_insertionSort keyLe pts
  · intro pts
    exact List.perm_insertionSort keyLe pts

/-- C8 (amended): when every source before the first variable-lacking
source processes successfully, the run fails with VariableNotFound at
that source; the sources after it are never consulted (the result does
not depend on them) and no output is written. -/
theorem c8_variable_not_found (varName : String) (b b1 : Bbox) (srcsA : List Source)
    (s : Source) (ps : List SeriesPoint)
    (hpre : processAll varName b srcsA = .ok (b1, ps))
    (hs : s.vars.lookup varName = none) :
    (∀ post : List Source,
        runSources varName b (srcsA ++ s :: post) = .error (.variableNotFound varName))
    ∧ (∀ post post' : List Source,
        processAll varName b (srcsA ++ s :: post)
          = processAll varName b (srcsA ++ s :: post'))
    ∧ (∀ post : List Source,
        outputFile (runSources varName b (srcsA ++ s :: post)) = none) := by
  have hsrc : processSource varName b1 s = .error (.variableNotFound varName) := by
    unfold processSource
    simp only [hs]
  have hfail : ∀ post : List Source,
      processAll varName b (srcsA ++ s :: post) = .error (.variableNotFound varName) := by
    intro post
    rw [processAll_append, hpre]
    dsimp only
    simp only [processAll, hsrc]
  refine ⟨fun post => ?_, fun post post' => by rw [hfail post, hfail post'], fun post => ?_⟩
  · unfold runSources
    rw [hfail post]
    rfl
  · simp [runSources, outputFile, hfail post, Except.map]

/-- Witness for C8 (amended): source 1 has the variable and succeeds;
source 2 lacks it, so the run aborts with VariableNotFound and produces
no output. -/
theorem c8_variable_not_found_witness :
    runSources "emi" bboxW [srcHi, srcNoVar] = .error (.variableNotFound "emi")
    ∧ outputFile (runSources "emi" bboxW [srcHi, srcNoVar]) = none := by
  have hA : processSource "emi" bboxW srcHi = .ok (⟨350, 0, 10, 0⟩, [⟨"2001", 0⟩]) := by
    norm_num [processSource, normalizeLon, lonMaxGt180, pymod, sel, selRange,
      sumLatLon, extract_year_from_filename, pathName, splitOnChar, isYearToken, List.lookup,
      List.enum, List.enumFrom, bboxW, gridHi, srcHi]
    rfl
  have hpre : processAll "emi" bboxW [srcHi] = .ok (⟨350, 0, 10, 0⟩, [⟨"2001", 0⟩]) := by
    simp [processAll, hA]
  have h := c8_variable_not_found "emi" bboxW ⟨350, 0, 10, 0⟩ [srcHi] srcNoVar
    [⟨"2001", 0⟩] hpre rfl
  exact ⟨h.1 [], h.2.2 []⟩

/-- C8 counterexample: the variable is absent from the second source,
yet the run fails with MissingYear (raised by the first source, whose
filename has no year token), not VariableNotFound: as universally
stated, the claim is false on the code. -/
theorem c8_counterexample :
    srcNoVar.vars.lookup "emi" = none
    ∧ runSources "emi" bboxW [srcMissYr, srcNoVar] = .error (.missingYear "data.nc")
    ∧ runSources "emi" bboxW [srcMissYr, srcNoVar] ≠ .error (.variableNotFound "emi") := by
  have h1 : processSource "emi" bboxW srcMissYr = .error (.missingYear "data.nc") := by
    rfl
  have h2 : runSources "emi" bboxW [srcMissYr, srcNoVar] = .error (.missingYear "data.nc") := by
    simp [runSources, processAll, h1, Except.map]
  refine ⟨rfl, h2, ?_⟩
  rw [h2]
  intro hcon
  exact Err.noConfusion (Except.error.inj hcon)
